import Mathlib

/-!
Verification of the nyaa-stremio addon (src/server.js and the unnamed
source file src/unnamed/part_000, which contains the Kitsu/IMDb-based
variant of the addon).  Every definition below is a shallow embedding of
a concrete function of the source; the doc comment of each definition
names the function and file it embeds.  Strings are modelled by the Lean
String type, JavaScript numbers that hold integer counts by Nat, and the
regular expressions of the source by executable character-list scanners
whose semantics (a match exists at some position) mirrors RegExp.test.
-/

namespace NyaaStremio

/-! ## Character helpers

The source uses JavaScript regular expressions with the i flag whose
literal letters are all ASCII; Char.toLower performs exactly the ASCII
case folding needed for them. -/

/-- Lower-case a character, modelling the case-insensitive regex flag. -/
def lc (c : Char) : Char := c.toLower

/-- ASCII decimal digit, the regex class of a digit. -/
def isDigitChar (c : Char) : Bool := '0' ≤ c && c ≤ '9'

/-- ASCII alphanumeric character, the regex class used to capture an
info hash in the source. -/
def isAsciiAlnum (c : Char) : Bool :=
  ('a' ≤ c && c ≤ 'z') || ('A' ≤ c && c ≤ 'Z') || ('0' ≤ c && c ≤ '9')

/-- JavaScript regex whitespace: the character set matched by the regex
class of whitespace in a JavaScript RegExp. -/
def isJsWs (c : Char) : Bool :=
  c = ' ' || c = '\t' || c = '\n' || c = '\r' || c = '\x0b' || c = '\x0c' ||
  c = ' ' || c = ' ' || (' ' ≤ c && c ≤ ' ') ||
  c = ' ' || c = ' ' || c = ' ' || c = ' ' ||
  c = '　' || c = '﻿'

/-- JavaScript regex word character (ASCII letter, digit or underscore). -/
def isWordChar (c : Char) : Bool := isAsciiAlnum c || c = '_'

/-- Consume a literal pattern case-insensitively from the front of a
character list; returns the remainder on success. -/
def stripCI : List Char → List Char → Option (List Char)
  | [], cs => some cs
  | _ :: _, [] => none
  | p :: ps, c :: cs => if lc c = lc p then stripCI ps cs else none

/-! ## Torrent records

A torrent record as returned by the nyaapi search collaborator and
consumed by the source: fields name, magnet, seeders, filesize.  An
absent magnet or name behaves in the source like the empty string
(both are falsy and match no pattern), and absent seeders like 0
(the source always reads them through "|| 0" and "|| ''" guards). -/

structure Torrent where
  name : String
  magnet : String
  seeders : Nat
  filesize : String
deriving DecidableEq, Repr

/-! ## Info-hash extraction and deduplication

Embeds the merge loop of searchNyaa (src/server.js lines 161-167) and of
searchNyaaForName (src/unnamed/part_000 lines 226-232):

  const hash = t.magnet?.match(btih-regex)?.[1]?.toLowerCase();
  if (hash && !seenHashes.has(hash)) { seenHashes.add(hash); allTorrents.push(t); }
-/

/-- First match of the case-insensitive pattern btih followed by a colon
and one or more alphanumerics, capturing the alphanumeric run lower-cased;
the leftmost position with a non-empty capture wins, as with RegExp match. -/
def extractHashAux : List Char → Option (List Char)
  | [] => none
  | c :: rest =>
    match stripCI "btih:".toList (c :: rest) with
    | some after =>
      match after with
      | a :: _ =>
        if isAsciiAlnum a then some ((after.takeWhile isAsciiAlnum).map lc)
        else extractHashAux rest
      | [] => extractHashAux rest
    | none => extractHashAux rest

/-- Info hash of a magnet URI: the lower-cased capture of the btih regex,
or none when the regex does not match (such records are dropped). -/
def extractHash (magnet : String) : Option String :=
  (extractHashAux magnet.toList).map List.asString

/-- The dedup loop with its seen-hash set accumulator. -/
def dedupTorrentsAux : List Torrent → List String → List Torrent
  | [], _ => []
  | t :: ts, seen =>
    match extractHash t.magnet with
    | none => dedupTorrentsAux ts seen
    | some h =>
      if h ∈ seen then dedupTorrentsAux ts seen
      else t :: dedupTorrentsAux ts (h :: seen)

/-- Merge-and-dedup of searchNyaa: keeps the first record seen for each
distinct info hash, drops records without an extractable hash. -/
def dedupTorrents (ts : List Torrent) : List Torrent := dedupTorrentsAux ts []

/-- The multiset of extractable info hashes of a record list. -/
def torrentHashes (ts : List Torrent) : List String :=
  ts.filterMap (fun t => extractHash t.magnet)

theorem torrentHashes_nil : torrentHashes [] = [] := rfl

theorem torrentHashes_cons (t : Torrent) (ts : List Torrent) :
    torrentHashes (t :: ts) =
      match extractHash t.magnet with
      | none => torrentHashes ts
      | some h => h :: torrentHashes ts := by
  cases hh : extractHash t.magnet <;> simp [torrentHashes, List.filterMap_cons, hh]

theorem dedupTorrentsAux_cons_none {t : Torrent} (ts : List Torrent)
    (seen : List String) (hh : extractHash t.magnet = none) :
    dedupTorrentsAux (t :: ts) seen = dedupTorrentsAux ts seen := by
  simp [dedupTorrentsAux, hh]

theorem dedupTorrentsAux_cons_seen {t : Torrent} {h' : String}
    (ts : List Torrent) (seen : List String)
    (hh : extractHash t.magnet = some h') (hmem : h' ∈ seen) :
    dedupTorrentsAux (t :: ts) seen = dedupTorrentsAux ts seen := by
  simp [dedupTorrentsAux, hh, hmem]

theorem dedupTorrentsAux_cons_new {t : Torrent} {h' : String}
    (ts : List Torrent) (seen : List String)
    (hh : extractHash t.magnet = some h') (hmem : h' ∉ seen) :
    dedupTorrentsAux (t :: ts) seen = t :: dedupTorrentsAux ts (h' :: seen) := by
  simp [dedupTorrentsAux, hh, hmem]

theorem mem_torrentHashes_dedupAux (h : String) :
    ∀ (l : List Torrent) (seen : List String),
      h ∈ torrentHashes (dedupTorrentsAux l seen) ↔
        h ∈ torrentHashes l ∧ h ∉ seen := by
  intro l
  induction l with
  | nil => intro seen; simp [dedupTorrentsAux, torrentHashes]
  | cons t ts ih =>
    intro seen
    cases hh : extractHash t.magnet with
    | none =>
      rw [dedupTorrentsAux_cons_none ts seen hh, ih]
      simp [torrentHashes_cons, hh]
    | some h' =>
      by_cases hmem : h' ∈ seen
      · rw [dedupTorrentsAux_cons_seen ts seen hh hmem, ih]
        simp only [torrentHashes_cons, hh, List.mem_cons]
        by_cases heq : h = h'
        · subst heq; simp [hmem]
        · simp [heq]
      · rw [dedupTorrentsAux_cons_new ts seen hh hmem]
        simp only [torrentHashes_cons, hh, List.mem_cons, ih]
        by_cases heq : h = h'
        · subst heq; simp [hmem]
        · simp [heq]

theorem nodup_torrentHashes_dedupAux :
    ∀ (l : List Torrent) (seen : List String),
      (torrentHashes (dedupTorrentsAux l seen)).Nodup := by
  intro l
  induction l with
  | nil => intro seen; simp [dedupTorrentsAux, torrentHashes]
  | cons t ts ih =>
    intro seen
    cases hh : extractHash t.magnet with
    | none => rw [dedupTorrentsAux_cons_none ts seen hh]; exact ih seen
    | some h' =>
      by_cases hmem : h' ∈ seen
      · rw [dedupTorrentsAux_cons_seen ts seen hh hmem]; exact ih seen
      · rw [dedupTorrentsAux_cons_new ts seen hh hmem]
        simp only [torrentHashes_cons, hh, List.nodup_cons]
        refine ⟨fun hc => ?_, ih _⟩
        rw [mem_torrentHashes_dedupAux] at hc
        exact hc.2 (List.mem_cons_self _ _)

theorem mem_dedupAux_hash_isSome :
    ∀ (l : List Torrent) (seen : List String) (t : Torrent),
      t ∈ dedupTorrentsAux l seen → (extractHash t.magnet).isSome := by
  intro l
  induction l with
  | nil => intro seen t ht; simp [dedupTorrentsAux] at ht
  | cons u ts ih =>
    intro seen t ht
    cases hh : extractHash u.magnet with
    | none =>
      rw [dedupTorrentsAux_cons_none ts seen hh] at ht
      exact ih _ _ ht
    | some h' =>
      by_cases hmem : h' ∈ seen
      · rw [dedupTorrentsAux_cons_seen ts seen hh hmem] at ht
        exact ih _ _ ht
      · rw [dedupTorrentsAux_cons_new ts seen hh hmem, List.mem_cons] at ht
        rcases ht with rfl | ht
        · simp [hh]
        · exact ih _ _ ht

theorem filter_hash_dedupAux (h : String) :
    ∀ (l : List Torrent) (seen : List String),
      ((dedupTorrentsAux l seen).filter
          (fun t => extractHash t.magnet == some h)).length
        = (if h ∈ torrentHashes l ∧ h ∉ seen then 1 else 0) := by
  intro l
  induction l with
  | nil => intro seen; simp [dedupTorrentsAux, torrentHashes]
  | cons t ts ih =>
    intro seen
    cases hh : extractHash t.magnet with
    | none =>
      rw [dedupTorrentsAux_cons_none ts seen hh, ih]
      simp [torrentHashes_cons, hh]
    | some h' =>
      by_cases hmem : h' ∈ seen
      · rw [dedupTorrentsAux_cons_seen ts seen hh hmem, ih]
        simp only [torrentHashes_cons, hh, List.mem_cons]
        by_cases heq : h = h'
        · subst heq; simp [hmem]
        · simp [heq]
      · rw [dedupTorrentsAux_cons_new ts seen hh hmem, List.filter_cons]
        by_cases heq : h = h'
        · subst heq
          simp only [hh, beq_self_eq_true, if_pos, List.length_cons,
            ih, torrentHashes_cons, List.mem_cons]
          simp [hmem]
        · have hne : (extractHash t.magnet == some h) = false := by
            simp [hh]
            exact fun hc => heq hc.symm
          rw [hne]
          simp only [Bool.false_eq_true, if_neg, not_false_eq_true, ih,
            torrentHashes_cons, hh, List.mem_cons]
          by_cases hts : h ∈ torrentHashes ts <;> simp [hts, heq]

/-- Sample record for concrete evaluations: a SubsPlease 1080p release. -/
def sampleA : Torrent :=
  { name := "[SubsPlease] Demon Slayer - 07 (1080p)"
    magnet := "magnet:?xt=urn:btih:ABCD01&dn=a"
    seeders := 120
    filesize := "1.4 GiB" }

/-- Sample record with a distinct hash and no 1080p marker. -/
def sampleB : Torrent :=
  { name := "[Judas] Demon Slayer 07 [720p]"
    magnet := "magnet:?xt=urn:btih:EF99&dn=b"
    seeders := 120
    filesize := "700 MiB" }

/-- C3: the dedup step of the torrent discovery engine keeps exactly one
record per distinct info hash extracted case-insensitively from the btih
component of the magnet URI and lower-cased, drops records without an
extractable hash, and the set of hashes present in the output is invariant
under permutation of the input records. -/
theorem dedup_unique_per_hash (l : List Torrent) :
    (∀ t ∈ dedupTorrents l, (extractHash t.magnet).isSome)
    ∧ (∀ h : String,
        ((dedupTorrents l).filter
            (fun t => extractHash t.magnet == some h)).length
          = (if h ∈ torrentHashes l then 1 else 0))
    ∧ (∀ l2 : List Torrent, l.Perm l2 →
        ∀ h : String,
          h ∈ torrentHashes (dedupTorrents l) ↔
            h ∈ torrentHashes (dedupTorrents l2)) := by
  refine ⟨fun t ht => mem_dedupAux_hash_isSome l [] t ht, fun h => ?_, ?_⟩
  · have := filter_hash_dedupAux h l []
    simpa [dedupTorrents] using this
  · intro l2 hperm h
    rw [dedupTorrents, dedupTorrents, mem_torrentHashes_dedupAux,
      mem_torrentHashes_dedupAux]
    have : (torrentHashes l).Perm (torrentHashes l2) := hperm.filterMap _
    simp [this.mem_iff]

/-- Witness for C3 at a concrete two-record input and its transposition. -/
theorem dedup_unique_per_hash_witness :
    "abcd01" ∈ torrentHashes (dedupTorrents [sampleA, sampleB]) ↔
      "abcd01" ∈ torrentHashes (dedupTorrents [sampleB, sampleA]) :=
  (dedup_unique_per_hash [sampleA, sampleB]).2.2 [sampleB, sampleA]
    (by decide) "abcd01"

/-! ## The episode filter regex

Embeds the filter of searchNyaa (src/server.js lines 170-176) and of
searchNyaaForName (src/unnamed/part_000 lines 235-241): a record survives
iff the case-insensitive pattern

  (delimiter | e/ep/episode whitespace*) 0* episode (boundary | end | nondigit)

matches somewhere in its name, where delimiter is one of hyphen,
underscore, whitespace, opening bracket or parenthesis, and boundary is
one of whitespace, hyphen, underscore, closing bracket or parenthesis, or
the letter v.  RegExp.test semantics: a match exists at some start
position; each alternative and each star is existential. -/

/-- All remainders obtainable by consuming zero or more characters
satisfying p from the front (existential Kleene star of a class). -/
def starChar (p : Char → Bool) : List Char → List (List Char)
  | [] => [[]]
  | c :: rest => (c :: rest) :: (if p c then starChar p rest else [])

/-- Decimal digits of a number as interpolated into the regex source. -/
def natDigits (n : Nat) : List Char := (toString n).toList

/-- Tail of the episode regex: zero or more literal zeros, the episode
digits, then a boundary character, end of input, or any non-digit. -/
def epTailMatch (ep : Nat) (cs : List Char) : Bool :=
  (starChar (· = '0') cs).any fun cs2 =>
    match stripCI (natDigits ep) cs2 with
    | none => false
    | some [] => true
    | some (c :: _) =>
      isJsWs c || c = '-' || c = '_' || c = ']' || c = ')' || lc c = 'v' ||
        !(isDigitChar c)

/-- Delimiter class that may precede the episode number. -/
def isEpDelim (c : Char) : Bool :=
  c = '-' || c = '_' || isJsWs c || c = '[' || c = '('

/-- One match attempt of the episode regex at a fixed start position. -/
def epMatchAt (ep : Nat) : List Char → Bool
  | [] => false
  | c :: rest =>
    (isEpDelim c && epTailMatch ep rest) ||
    (["e", "ep", "episode"].any fun w =>
      match stripCI w.toList (c :: rest) with
      | some cs1 => (starChar isJsWs cs1).any (epTailMatch ep)
      | none => false)

/-- RegExp.test of the episode pattern against a record name. -/
def epRegexTest (ep : Nat) (name : String) : Bool :=
  name.toList.tails.any (epMatchAt ep)

/-! ## Junk-title and Latin-script classifiers (src/unnamed/part_000)

These are applied by the title resolver to candidate title strings
obtained from Kitsu or AniList, lines 50-57 and 66-70 of part_000. -/

/-- Case-insensitive substring test, the semantics of an alternation of
literal words under RegExp.test. -/
def containsCI (w : String) (name : String) : Bool :=
  name.toList.tails.any fun cs => (stripCI w.toList cs).isSome

/-- Junk-title regex of part_000 line 56: mini anime, recap, ova, special,
pv, promo, preview, the word part followed by a space and a digit, a
bullet character, or a double question mark, case-insensitively. -/
def isJunkTitle (str : String) : Bool :=
  ["mini anime", "recap", "ova", "special", "pv", "promo", "preview"].any
      (fun w => containsCI w str)
  || (str.toList.tails.any fun cs =>
        match stripCI "part ".toList cs with
        | some (d :: _) => isDigitChar d
        | _ => false)
  || str.toList.contains '●'
  || (str.toList.tails.any fun cs =>
        match cs with
        | '?' :: '?' :: _ => true
        | _ => false)

/-- Character class of the Latin-script regex of part_000 line 51; the
explicitly listed punctuation is ASCII and already below 0x7f. -/
def isLatinChar (c : Char) : Bool :=
  c ≤ '\x7f' || ('À' ≤ c && c ≤ 'ɏ') ||
    ('Ḁ' ≤ c && c ≤ 'ỿ') || isJsWs c

/-- Latin-script test of part_000 line 50: the whole (non-empty) string
consists of characters of the class. -/
def isLatinScript (str : String) : Bool :=
  !str.toList.isEmpty && str.toList.all isLatinChar

/-- First-occurrence dedup, the semantics of the JavaScript Set
constructor followed by spreading back into an array. -/
def dedupStringsAux : List String → List String → List String
  | [], _ => []
  | s :: rest, seen =>
    if s ∈ seen then dedupStringsAux rest seen
    else s :: dedupStringsAux rest (s :: seen)

/-- Deduplicate a list of strings keeping first occurrences. -/
def dedupStrings (l : List String) : List String := dedupStringsAux l []

/-- The title-candidate filter expression shared by getNamesFromKitsu
(part_000 line 70) and getNamesFromIMDb (line 122): keep non-empty
Latin-script non-junk titles. -/
def titleFilter (titles : List String) : List String :=
  titles.filter fun n => (n != "") && isLatinScript n && !(isJunkTitle n)

/-- Title emission of getNamesFromKitsu (part_000 lines 66-74): filter
the Kitsu title candidates, then dedup via a Set.  This path has no
fallback: it emits only filtered titles. -/
def resolverNameFilter (titles : List String) : List String :=
  dedupStrings (titleFilter titles)

/-- Name assembly of getNamesFromIMDb (part_000 lines 105-128): best is
the chosen AniList match's romaji and english titles (absent title
fields behave as the empty string), or none when AniList returned no
media.  With no media the raw Cinemeta name is returned unchecked (lines
108-109); with media the two titles are filtered, but when the filter
removes every candidate the raw Cinemeta name is again used unchecked
(line 125); a Set dedups the final list (line 128). -/
def imdbResolvedNames (cinemetaName : String)
    (best : Option (String × String)) : List String :=
  match best with
  | none => [cinemetaName]
  | some (romaji, english) =>
    dedupStrings
      (if (titleFilter [romaji, english]).isEmpty then [cinemetaName]
       else titleFilter [romaji, english])

/-! ## The season filter (src/unnamed/part_000 lines 244-263) -/

/-- Match of the wrong-season marker S 0* s E at some position. -/
def sxePattern (s : Nat) (name : String) : Bool :=
  name.toList.tails.any fun cs =>
    match cs with
    | c :: rest =>
      lc c = 's' && ((starChar (· = '0') rest).any fun cs2 =>
        match stripCI (natDigits s) cs2 with
        | some (e :: _) => lc e = 'e'
        | _ => false)
    | [] => false

/-- Match of the wrong-season marker Season whitespace* s with a negative
digit lookahead. -/
def seasonNumPattern (s : Nat) (name : String) : Bool :=
  name.toList.tails.any fun cs =>
    match stripCI "season".toList cs with
    | some cs1 => (starChar isJsWs cs1).any fun cs2 =>
        match stripCI (natDigits s) cs2 with
        | some [] => true
        | some (c :: _) => !(isDigitChar c)
        | none => false
    | none => false

/-- Match of an ordinal season phrase: a literal ordinal, whitespace*,
then the word Season. -/
def ordSeasonPattern (pre : String) (name : String) : Bool :=
  name.toList.tails.any fun cs =>
    match stripCI pre.toList cs with
    | some cs1 =>
      (starChar isJsWs cs1).any fun cs2 => (stripCI "season".toList cs2).isSome
    | none => false

/-- The wrong-season regexes built for one candidate season s
(part_000 lines 249-255). -/
def wrongSeasonMatch (s : Nat) (name : String) : Bool :=
  sxePattern s name || seasonNumPattern s name ||
  (s == 2 && ordSeasonPattern "2nd" name) ||
  (s == 3 && ordSeasonPattern "3rd" name) ||
  (decide (4 ≤ s) && ordSeasonPattern (toString s ++ "th") name)

/-- Season filter: a record is kept unless a wrong-season pattern for any
season 1..20 other than the requested one matches its name; records with
no season marker match no pattern and so pass by default. -/
def seasonKeep (season : Nat) (name : String) : Bool :=
  (List.range' 1 20).all fun s => s == season || !(wrongSeasonMatch s name)

/-! ## The filtering stages of the discovery engine -/

/-- Seeder-descending comparator of the final sorts of searchNyaa
(src/server.js line 178) and searchNyaaForName (part_000 line 265). -/
def seedersDesc (a b : Torrent) : Prop := b.seeders ≤ a.seeders

instance : DecidableRel seedersDesc := fun a b => Nat.decLe b.seeders a.seeders

instance : IsTotal Torrent seedersDesc :=
  ⟨fun a b => Nat.le_total b.seeders a.seeders⟩

instance : IsTrans Torrent seedersDesc :=
  ⟨fun _ _ _ hab hbc => Nat.le_trans hbc hab⟩

/-- Stable sort by descending seeders (JavaScript Array.sort is stable). -/
def sortBySeeders (l : List Torrent) : List Torrent :=
  List.insertionSort seedersDesc l

/-- The filtering stages of searchNyaaForName (part_000 lines 219-267):
merge and dedup by info hash, the episode regex filter when an episode
was requested, the wrong-season filter when a season was requested, then
the seeder-descending sort.  No other record filter exists in the
function; in particular no junk-title filter is applied to records. -/
def nyaaFilterPipeline (episode : Option Nat) (season : Option Nat)
    (records : List Torrent) : List Torrent :=
  let deduped := dedupTorrents records
  let epFiltered := match episode with
    | none => deduped
    | some ep => deduped.filter fun t => epRegexTest ep t.name
  let seasonFiltered := match season with
    | none => epFiltered
    | some s => epFiltered.filter fun t => seasonKeep s t.name
  sortBySeeders seasonFiltered

/-- A batch release whose name carries the numeric range 01-12 and the
word Batch but not the digit 7. -/
def batchRecord : Torrent :=
  { name := "[SubsPlease] Show (01-12) (Batch)"
    magnet := "magnet:?xt=urn:btih:AAAA11"
    seeders := 50
    filesize := "5 GiB" }

/-- Counterexample to C4: the episode filter has no batch-range rule and
no complete/batch keyword rule.  For requested episode 7 a record whose
name carries the range 01-12 and the word Batch fails the regex and is
dropped from the pipeline, although the claim says it matches any episode
in the range 1..12 and that the batch keyword confers a match. -/
theorem episode_filter_batch_claim_fails :
    epRegexTest 7 "[SubsPlease] Show (01-12) (Batch)" = false ∧
    nyaaFilterPipeline (some 7) (some 1) [batchRecord] = [] := by decide

/-- C4 as amended: the episode filter is exactly the single number-with-
delimiter regex.  Names containing 07 or E07 match episode 7; a name
with the range 01-12 matches only episodes 1 and 12 (whose digits appear
adjacent to a delimiter), not the interior of the range; the literal
words Complete and Batch confer no match. -/
theorem episode_filter_regex_only :
    epRegexTest 7 "Show 07" = true ∧
    epRegexTest 7 "[X] Show E07" = true ∧
    epRegexTest 1 "Show 01-12" = true ∧
    epRegexTest 12 "Show 01-12" = true ∧
    (∀ e, e < 12 → 2 ≤ e → epRegexTest e "Show 01-12" = false) ∧
    epRegexTest 7 "Show Complete Batch" = false := by decide

/-- Witness for the amended C4 at episode 7 inside the range 01-12. -/
theorem episode_filter_regex_only_witness :
    epRegexTest 7 "Show 01-12" = false :=
  episode_filter_regex_only.2.2.2.2.1 7 (by decide) (by decide)

/-- A torrent record whose name contains the junk marker Recap together
with a matching episode number. -/
def recapRecord : Torrent :=
  { name := "[X] Show Recap 07"
    magnet := "magnet:?xt=urn:btih:CAFE07"
    seeders := 9
    filesize := "" }

/-- Counterexample to C5: the discovery-engine filtering stage applies no
junk filter to torrent records.  A record whose name matches the junk
regex (it contains Recap) survives the full pipeline for episode 7,
season 1, and is returned. -/
theorem recap_record_not_dropped :
    isJunkTitle recapRecord.name = true ∧
    nyaaFilterPipeline (some 7) (some 1) [recapRecord] = [recapRecord] := by
  decide

theorem mem_dedupStringsAux :
    ∀ (l seen : List String) (s : String),
      s ∈ dedupStringsAux l seen → s ∈ l := by
  intro l
  induction l with
  | nil => intro seen s hs; simp [dedupStringsAux] at hs
  | cons a rest ih =>
    intro seen s hs
    rw [dedupStringsAux] at hs
    by_cases hmem : a ∈ seen
    · rw [if_pos hmem] at hs
      exact List.mem_cons_of_mem _ (ih _ _ hs)
    · rw [if_neg hmem, List.mem_cons] at hs
      rcases hs with rfl | hs
      · exact List.mem_cons_self _ _
      · exact List.mem_cons_of_mem _ (ih _ _ hs)

theorem mem_titleFilter {n : String} {titles : List String}
    (h : n ∈ titleFilter titles) :
    isJunkTitle n = false ∧ isLatinScript n = true := by
  rw [titleFilter, List.mem_filter] at h
  have hcond := h.2
  simp only [Bool.and_eq_true, bne_iff_ne, Bool.not_eq_true'] at hcond
  exact ⟨hcond.2, hcond.1.2⟩

/-- C5 as amended: the junk-title classifier is never applied to torrent
records — the Recap-named record survives the record pipeline — and is
used only during title resolution, where it is not exhaustive either:
the Kitsu path and the AniList-candidate filter emit only non-junk
Latin-script titles, but the IMDb path falls back to the raw Cinemeta
name unchecked, both when AniList returns no media and when the filter
removes every candidate, and that fallback can emit a junk title
verbatim. -/
theorem junk_filter_applies_to_titles_only (titles : List String)
    (cinemetaName romaji english : String) :
    (∀ n ∈ resolverNameFilter titles,
        isJunkTitle n = false ∧ isLatinScript n = true)
    ∧ (∀ n ∈ imdbResolvedNames cinemetaName (some (romaji, english)),
        (isJunkTitle n = false ∧ isLatinScript n = true) ∨ n = cinemetaName)
    ∧ imdbResolvedNames cinemetaName none = [cinemetaName]
    ∧ (isJunkTitle "Show Recap" = true ∧
        imdbResolvedNames "Show Recap" (some ("レガップ", "")) = ["Show Recap"])
    ∧ nyaaFilterPipeline (some 7) (some 1) [recapRecord] =
        [recapRecord] := by
  refine ⟨?_, ?_, rfl, by decide, by decide⟩
  · intro n hn
    exact mem_titleFilter (mem_dedupStringsAux _ _ _ hn)
  · intro n hn
    have hn2 : n ∈ dedupStringsAux
        (if (titleFilter [romaji, english]).isEmpty then [cinemetaName]
         else titleFilter [romaji, english]) [] := hn
    have hn3 := mem_dedupStringsAux _ _ _ hn2
    by_cases hemp : (titleFilter [romaji, english]).isEmpty
    · rw [if_pos hemp] at hn3
      right
      simpa using hn3
    · rw [if_neg hemp] at hn3
      exact Or.inl (mem_titleFilter hn3)

/-- Witness for the amended C5 at a concrete title list and a concrete
AniList match. -/
theorem junk_filter_applies_to_titles_only_witness :
    isJunkTitle "Demon Slayer" = false ∧ isLatinScript "Demon Slayer" = true :=
  (junk_filter_applies_to_titles_only ["Demon Slayer", "Demon Slayer Recap"]
      "Demon Slayer" "Kimetsu no Yaiba" "Demon Slayer").1
    "Demon Slayer" (by decide)

/-- A record carrying an explicit season-2 marker and an episode-5 tag. -/
def seasonTwoRecord : Torrent :=
  { name := "[A] Show S02E05"
    magnet := "magnet:?xt=urn:btih:BBBB22"
    seeders := 80
    filesize := "" }

/-- A record with no season marker at all. -/
def noMarkerRecord : Torrent :=
  { name := "[B] Show - 05"
    magnet := "magnet:?xt=urn:btih:CCCC33"
    seeders := 40
    filesize := "" }

/-- C6: for requested season 1 the season filter excludes names carrying
an explicit different-season marker (S02E, Season 2, 2nd Season, 4th
Season), while a name with no season marker passes; through the full
pipeline for episode 5 season 1, the S02E05 record is rejected and the
unmarked record is returned. -/
theorem season_filter_season1_markers :
    seasonKeep 1 "[A] Show S02E05" = false ∧
    seasonKeep 1 "[A] Show Season 2" = false ∧
    seasonKeep 1 "[A] Show 2nd Season" = false ∧
    seasonKeep 1 "[A] Show 4th Season" = false ∧
    seasonKeep 1 "[B] Show - 05" = true ∧
    nyaaFilterPipeline (some 5) (some 1) [seasonTwoRecord, noMarkerRecord] =
      [noMarkerRecord] := by decide

/-! ## The final ranking of handleStreamRequest (src/unnamed/part_000
lines 368-395) -/

/-- Ordered preferred release-group allow-list (part_000 line 371). -/
def GROUP_PRIORITY : List String := ["SubsPlease", "Erai-raws", "EMBER", "ASW"]

/-- Walk the allow-list keeping the running index (part_000 lines
373-379): the priority is the index of the first group tag contained
case-insensitively in the name, or the list length when none is. -/
def groupPriorityAux : List String → Nat → String → Nat
  | [], i, _ => i
  | g :: gs, i, name =>
    if containsCI g name then i else groupPriorityAux gs (i + 1) name

/-- Release-group priority of a torrent name. -/
def getGroupPriority (torrentName : String) : Nat :=
  groupPriorityAux GROUP_PRIORITY 0 torrentName

/-- 1080p marker test of part_000 lines 381-383. -/
def is1080p (torrentName : String) : Bool := containsCI "1080p" torrentName

/-- Resolution tier: 0 for 1080p-marked names, 1 otherwise; the first
component of the comparator of part_000 lines 387-395. -/
def tier1080 (t : Torrent) : Nat := if is1080p t.name then 0 else 1

/-- The three-level comparator of the final ranking (part_000 lines
387-395): resolution tier, then allow-list priority, then descending
seeder count. -/
def rankLe (a b : Torrent) : Prop :=
  tier1080 a < tier1080 b ∨
    (tier1080 a = tier1080 b ∧
      (getGroupPriority a.name < getGroupPriority b.name ∨
        (getGroupPriority a.name = getGroupPriority b.name ∧
          b.seeders ≤ a.seeders)))

instance : DecidableRel rankLe := fun a b => by
  unfold rankLe
  exact inferInstance

instance : IsTotal Torrent rankLe :=
  ⟨fun a b => by unfold rankLe; omega⟩

instance : IsTrans Torrent rankLe :=
  ⟨fun a b c hab hbc => by unfold rankLe at hab hbc ⊢; omega⟩

/-- The survivor filter and stable three-level sort of part_000 lines
385-395: keep records with a magnet and at least one seeder, then sort. -/
def rankTorrents (l : List Torrent) : List Torrent :=
  List.insertionSort rankLe
    (l.filter fun t => (t.magnet != "") && decide (0 < t.seeders))

theorem rankLe_spec {a b : Torrent} (h : rankLe a b) :
    (is1080p b.name = true → is1080p a.name = true) ∧
    (is1080p a.name = is1080p b.name →
      getGroupPriority a.name ≤ getGroupPriority b.name) ∧
    (is1080p a.name = is1080p b.name →
      getGroupPriority a.name = getGroupPriority b.name →
      b.seeders ≤ a.seeders) := by
  unfold rankLe tier1080 at h
  by_cases ha : is1080p a.name <;> by_cases hb : is1080p b.name <;>
    simp only [ha, hb, if_pos, if_neg, Bool.true_eq_false, Bool.false_eq_true,
      if_true, if_false] <;>
    simp [ha, hb] at h ⊢ <;> omega

/-- C7: the final returned order ranks every 1080p-marked record before
every record without the marker, then by position in the preferred
release-group allow-list, then by descending seeder count; in particular
within any resolution tier and group tier, seeder counts are descending,
and a 1080p record never appears after a non-1080p one regardless of
seeders. -/
theorem ranking_1080p_groups_seeders (l : List Torrent) :
    (rankTorrents l).Pairwise (fun a b =>
      (is1080p b.name = true → is1080p a.name = true) ∧
      (is1080p a.name = is1080p b.name →
        getGroupPriority a.name ≤ getGroupPriority b.name) ∧
      (is1080p a.name = is1080p b.name →
        getGroupPriority a.name = getGroupPriority b.name →
        b.seeders ≤ a.seeders)) := by
  have hs : (rankTorrents l).Pairwise rankLe :=
    List.sorted_insertionSort rankLe _
  exact hs.imp rankLe_spec

/-! ## Stream candidate construction (src/unnamed/part_000 lines 345-424) -/

/-- A stream candidate as serialised in the streams array of the
response: display name, descriptive title, url, and the two behaviour
hints the source sets. -/
structure StreamEntry where
  name : String
  title : String
  url : String
  notWebReady : Bool
  bingeGroup : Option String
deriving DecidableEq, Repr

/-- Placeholder returned when no anime name could be resolved
(part_000 line 355). -/
def noNamesPlaceholder : StreamEntry :=
  { name := "❌ Nenalezeno"
    title := "Nepodařilo se najít název anime"
    url := "https://nyaa.si"
    notWebReady := true
    bingeGroup := none }

/-- Placeholder returned when no torrents were found
(part_000 line 365). -/
def noTorrentsPlaceholder (episode : Nat) (firstName : String) : StreamEntry :=
  { name := "⏳ Nenalezeno"
    title := "Ep " ++ toString episode ++ " není na Nyaa.si\n" ++ firstName
    url := "https://nyaa.si"
    notWebReady := true
    bingeGroup := none }

/-- Season-tag detector of part_000 line 401: the letter S followed by
two digits, or the word Season, optional whitespace, and a digit. -/
def hasSeasonTag (name : String) : Bool :=
  (name.toList.tails.any fun cs =>
    match cs with
    | c :: d1 :: d2 :: _ => lc c = 's' && isDigitChar d1 && isDigitChar d2
    | _ => false) ||
  (name.toList.tails.any fun cs =>
    match stripCI "season".toList cs with
    | some cs1 => (starChar isJsWs cs1).any fun cs2 =>
        match cs2 with
        | d :: _ => isDigitChar d
        | [] => false
    | none => false)

/-- UTF-8 bytes of a code point, as percent-encoding operates on them. -/
def utf8Bytes (n : Nat) : List Nat :=
  if n < 0x80 then [n]
  else if n < 0x800 then [0xc0 + n / 64, 0x80 + n % 64]
  else if n < 0x10000 then
    [0xe0 + n / 4096, 0x80 + (n / 64) % 64, 0x80 + n % 64]
  else
    [0xf0 + n / 262144, 0x80 + (n / 4096) % 64, 0x80 + (n / 64) % 64,
      0x80 + n % 64]

/-- Upper-case hexadecimal digit. -/
def hexDigit (n : Nat) : Char :=
  if n < 10 then Char.ofNat (48 + n) else Char.ofNat (65 + n - 10)

/-- Characters left intact by encodeURIComponent: ASCII alphanumerics
and minus, underscore, dot, bang, tilde, star, apostrophe, parentheses. -/
def isUriUnreserved (c : Char) : Bool :=
  isAsciiAlnum c || c = '-' || c = '_' || c = '.' || c = '!' || c = '~' ||
    c = '*' || c = Char.ofNat 39 || c = '(' || c = ')'

/-- The encodeURIComponent builtin used to embed a magnet URI in the
conversion-trigger url. -/
def encodeURIComponent (s : String) : String :=
  String.mk (s.toList.flatMap fun c =>
    if isUriUnreserved c then [c]
    else (utf8Bytes c.toNat).flatMap fun b =>
      ['%', hexDigit (b / 16), hexDigit (b % 16)])

/-- Stream title of part_000 lines 399-405, with the implicit-season-1
hint appended when the name carries no season tag. -/
def streamTitle (t : Torrent) : String :=
  t.name ++ (if hasSeasonTag t.name then "" else " [S1]") ++
    "\n👥 " ++ toString t.seeders ++ " seeders | 📦 " ++
    (if t.filesize = "" then "?" else t.filesize)

/-- One stream candidate (part_000 lines 407-420): a conversion-trigger
url under RealDebrid, the raw magnet otherwise. -/
def streamOf (hasRD : Bool) (rdKey baseURL : String) (t : Torrent) :
    StreamEntry :=
  if hasRD then
    { name := "🎌 RealDebrid"
      title := streamTitle t
      url := baseURL ++ "/" ++ rdKey ++ "/rd/" ++ encodeURIComponent t.magnet
      notWebReady := false
      bingeGroup := some "anime-nyaa-rd" }
  else
    { name := "🧲 Nyaa Magnet"
      title := streamTitle t
      url := t.magnet
      notWebReady := true
      bingeGroup := none }

/-- Core of handleStreamRequest of part_000 (lines 345-424) once the
resolved names and the search results are in hand: branch on empty
names, then on an empty torrent list, otherwise rank and build streams. -/
def handleStreamRequestCore (names : List String) (torrents : List Torrent)
    (episode : Nat) (rdKey baseURL : String) : List StreamEntry :=
  if names.isEmpty then [noNamesPlaceholder]
  else if torrents.isEmpty then
    [noTorrentsPlaceholder episode (names.headD "")]
  else
    let hasRD := (rdKey != "") && (rdKey != "nord")
    (rankTorrents torrents).map (streamOf hasRD rdKey baseURL)

/-- C9: when no title names resolve or no torrents are found, the stream
handler returns a well-formed response holding exactly one informative
placeholder candidate, never an error and never an empty list. -/
theorem stream_handler_placeholder (names : List String)
    (torrents : List Torrent) (episode : Nat) (rdKey baseURL : String)
    (h : names = [] ∨ torrents = []) :
    (handleStreamRequestCore names torrents episode rdKey baseURL).length = 1
    ∧ handleStreamRequestCore names torrents episode rdKey baseURL =
        (if names.isEmpty then [noNamesPlaceholder]
         else [noTorrentsPlaceholder episode (names.headD "")]) := by
  by_cases hn : names = []
  · subst hn
    simp [handleStreamRequestCore]
  · rcases h with h | h
    · exact absurd h hn
    · subst h
      simp [handleStreamRequestCore, hn]

/-- Witness for C9: unresolved names with a non-empty torrent list. -/
theorem stream_handler_placeholder_witness :
    (handleStreamRequestCore [] [sampleA] 7 "nord" "http://localhost:7000").length
        = 1
    ∧ handleStreamRequestCore [] [sampleA] 7 "nord" "http://localhost:7000" =
        (if ([] : List String).isEmpty then [noNamesPlaceholder]
         else [noTorrentsPlaceholder 7 (([] : List String).headD "")]) :=
  stream_handler_placeholder [] [sampleA] 7 "nord" "http://localhost:7000"
    (Or.inl rfl)

/-! ## The query variant generator (src/server.js lines 120-141) -/

theorem length_dropWhile_le {α} (p : α → Bool) (l : List α) :
    (l.dropWhile p).length ≤ l.length := by
  induction l with
  | nil => simp
  | cons a l ih =>
    by_cases h : p a
    · rw [List.dropWhile_cons, if_pos h]; exact Nat.le_succ_of_le ih
    · rw [List.dropWhile_cons, if_neg h]

/-- Remove the first case-insensitive occurrence of a literal tag
followed by a maximal digit run; the tag passed in ends with the literal
space of the regexes Season-space-digits and Part-space-digits. -/
def removeFirstTagNum (tag : List Char) : List Char → List Char
  | [] => []
  | c :: rest =>
    match stripCI tag (c :: rest) with
    | some after =>
      match after with
      | d :: _ =>
        if isDigitChar d then after.dropWhile isDigitChar
        else c :: removeFirstTagNum tag rest
      | [] => c :: removeFirstTagNum tag rest
    | none => c :: removeFirstTagNum tag rest

/-- Remove the first case-insensitive occurrence of a literal pattern
(the 2nd-Season and 3rd-Season replaces). -/
def removeFirstLit (pat : List Char) : List Char → List Char
  | [] => []
  | c :: rest =>
    match stripCI pat (c :: rest) with
    | some after => after
    | none => c :: removeFirstLit pat rest

/-- Remove every parenthesised group: the global replace of the pattern
open-paren, any non-close-paren characters, close-paren.  An unmatched
open parenthesis matches nothing and is kept.  The first argument is
recursion fuel (the scan consumes at least one character per step, so
the length of the input is always enough); fuel keeps the definition
structurally recursive and hence kernel-reducible. -/
def removeParensF : Nat → List Char → List Char
  | _, [] => []
  | 0, l => l
  | fuel + 1, c :: rest =>
    if c = '(' then
      match rest.dropWhile (fun x => !(x = ')')) with
      | [] => c :: removeParensF fuel rest
      | _ :: rest2 => removeParensF fuel rest2
    else c :: removeParensF fuel rest

/-- Remove every parenthesised group from a character list. -/
def removeParens (l : List Char) : List Char := removeParensF l.length l

/-- Collapse every whitespace run into a single space (the global
replace of one-or-more whitespace by one space), fuelled the same way. -/
def collapseWsF : Nat → List Char → List Char
  | _, [] => []
  | 0, l => l
  | fuel + 1, c :: rest =>
    if isJsWs c then ' ' :: collapseWsF fuel (rest.dropWhile isJsWs)
    else c :: collapseWsF fuel rest

/-- Collapse whitespace runs in a character list. -/
def collapseWs (l : List Char) : List Char := collapseWsF l.length l

/-- JavaScript String.prototype.trim: strip whitespace at both ends. -/
def jsTrim (l : List Char) : List Char :=
  ((l.dropWhile isJsWs).reverse.dropWhile isJsWs).reverse

/-- The clean helper of buildSearchVariants (src/server.js lines
121-124): drop the first Season-number and Part-number tag, the first
2nd-Season and 3rd-Season phrase, all parenthesised groups and all
colons, then trim. -/
def cleanName (n : String) : String :=
  String.mk (jsTrim (List.filter (fun c => !(c = ':'))
    (removeParens
      (removeFirstLit "3rd Season".toList
        (removeFirstLit "2nd Season".toList
          (removeFirstTagNum "Part ".toList
            (removeFirstTagNum "Season ".toList n.toList)))))))

/-- Truncation at the first colon (split-at-colon, first part, trimmed). -/
def beforeColon (n : String) : String :=
  String.mk (jsTrim (n.toList.takeWhile (fun c => !(c = ':'))))

/-- Truncation at the first hyphen. -/
def beforeHyphen (n : String) : String :=
  String.mk (jsTrim (n.toList.takeWhile (fun c => !(c = '-'))))

/-- Punctuation strip: every character neither word nor whitespace
becomes a space, whitespace runs collapse, then trim. -/
def punctStripped (n : String) : String :=
  String.mk (jsTrim (collapseWs
    (n.toList.map fun c => if isWordChar c || isJsWs c then c else ' ')))

/-- Zero-padding of the episode number to two digits (padStart). -/
def pad2 (n : Nat) : String :=
  if (toString n).length = 1 then "0" ++ toString n else toString n

/-- The five base variants of buildSearchVariants (src/server.js lines
126-133), filtered for emptiness and deduplicated by a Set. -/
def baseVariants (animeName : String) : List String :=
  dedupStrings
    (([animeName, cleanName animeName, beforeColon animeName,
      beforeHyphen animeName, punctStripped animeName]).filter
        (fun n => n != ""))

/-- buildSearchVariants of src/server.js lines 120-141: with an episode,
each base variant expands to the padded and the raw query. -/
def buildSearchVariants (animeName : String) (episode : Option Nat) :
    List String :=
  match episode with
  | none => baseVariants animeName
  | some ep =>
    (baseVariants animeName).flatMap fun n =>
      [n ++ " " ++ pad2 ep, n ++ " " ++ toString ep]

/-- Counterexample to C8: for episode 12 the zero-padded and raw forms
coincide, so the generator emits the same query twice and its output is
not a deduplicated set. -/
theorem build_variants_duplicate_for_ep12 :
    buildSearchVariants "Naruto" (some 12) = ["Naruto 12", "Naruto 12"] ∧
    ¬ (buildSearchVariants "Naruto" (some 12)).Nodup := by
  constructor
  · decide
  · decide

theorem mem_dedupStringsAux_iff (s : String) :
    ∀ (l seen : List String),
      s ∈ dedupStringsAux l seen ↔ s ∈ l ∧ s ∉ seen := by
  intro l
  induction l with
  | nil => intro seen; simp [dedupStringsAux]
  | cons a rest ih =>
    intro seen
    rw [dedupStringsAux]
    by_cases hmem : a ∈ seen
    · rw [if_pos hmem, ih, List.mem_cons]
      by_cases heq : s = a
      · subst heq; simp [hmem]
      · simp [heq]
    · rw [if_neg hmem, List.mem_cons, List.mem_cons, ih, List.mem_cons]
      by_cases heq : s = a
      · subst heq; simp [hmem]
      · simp [heq]

theorem nodup_dedupStringsAux :
    ∀ (l seen : List String), (dedupStringsAux l seen).Nodup := by
  intro l
  induction l with
  | nil => intro seen; simp [dedupStringsAux]
  | cons a rest ih =>
    intro seen
    rw [dedupStringsAux]
    by_cases hmem : a ∈ seen
    · rw [if_pos hmem]; exact ih seen
    · rw [if_neg hmem, List.nodup_cons]
      refine ⟨fun hc => ?_, ih _⟩
      rw [mem_dedupStringsAux_iff] at hc
      exact hc.2 (List.mem_cons_self _ _)

theorem string_append_right_cancel {a b c : String} (h : a ++ c = b ++ c) :
    a = b := by
  apply String.ext
  have hd := congrArg String.data h
  rw [String.data_append, String.data_append] at hd
  exact List.append_cancel_right hd

/-- A padded query can never equal a raw query, whatever the two base
variants: the character before the final digit is a zero on one side and
a space on the other. -/
theorem pad_query_ne_raw_query (d : Char) (n1 n2 : String) :
    n1 ++ " " ++ String.mk ['0', d] ≠ n2 ++ " " ++ String.mk [d] := by
  intro h
  have hd := congrArg String.data h
  rw [String.data_append, String.data_append, String.data_append,
    String.data_append] at hd
  have hrev := congrArg List.reverse hd
  simp only [List.reverse_append] at hrev
  have h1 : (String.mk ['0', d]).data.reverse = [d, '0'] := rfl
  have h2 : (String.mk [d]).data.reverse = [d] := rfl
  have h3 : (" " : String).data.reverse = [' '] := rfl
  rw [h1, h2, h3] at hrev
  simp only [List.cons_append, List.nil_append, List.append_assoc,
    List.cons.injEq] at hrev
  have : ('0' : Char) = ' ' := by
    have := hrev.2
    simp only [List.cons.injEq] at this
    exact this.1
  exact absurd this (by decide)

theorem pair_left_cancel {x m p : String}
    (h : x ++ " " ++ p = m ++ " " ++ p) : x = m :=
  string_append_right_cancel (string_append_right_cancel h)

/-- Nodup of the episode expansion when the padded and raw forms are the
two distinct shapes handled by the lemma above. -/
theorem nodup_pair_flatMap (d : Char) :
    ∀ base : List String, base.Nodup →
      (base.flatMap fun n =>
        [n ++ " " ++ String.mk ['0', d], n ++ " " ++ String.mk [d]]).Nodup := by
  intro base
  induction base with
  | nil => intro _; simp
  | cons x rest ih =>
    intro hnd
    rw [List.nodup_cons] at hnd
    simp only [List.flatMap_cons, List.cons_append, List.nil_append]
    rw [List.nodup_cons, List.nodup_cons]
    refine ⟨?_, ?_, ih hnd.2⟩
    · intro hc
      rcases List.mem_cons.mp hc with hc | hc
      · exact pad_query_ne_raw_query d x x hc
      · obtain ⟨m, hm, hcm⟩ := List.mem_flatMap.mp hc
        rcases List.mem_cons.mp hcm with hcm | hcm
        · exact hnd.1 (pair_left_cancel hcm ▸ hm)
        · rcases List.mem_cons.mp hcm with hcm | hcm
          · exact pad_query_ne_raw_query d x m hcm
          · exact absurd hcm (List.not_mem_nil _)
    · intro hc
      obtain ⟨m, hm, hcm⟩ := List.mem_flatMap.mp hc
      rcases List.mem_cons.mp hcm with hcm | hcm
      · exact pad_query_ne_raw_query d m x hcm.symm
      · rcases List.mem_cons.mp hcm with hcm | hcm
        · exact hnd.1 (pair_left_cancel hcm ▸ hm)
        · exact absurd hcm (List.not_mem_nil _)

theorem length_flatMap_pairs (p r : String) :
    ∀ l : List String,
      (l.flatMap fun n => [n ++ " " ++ p, n ++ " " ++ r]).length
        = 2 * l.length := by
  intro l
  induction l with
  | nil => simp
  | cons x rest ih => simp [List.flatMap_cons, ih]; omega

/-- C8 as amended: the five base variants are deduplicated and exactly
the non-empty cleaning results; with an episode each base variant is
expanded into the padded and the raw query, giving twice as many
entries; the expanded list is itself duplicate-free for single-digit
episodes, while for episodes of ten and above the padded form equals the
raw form and the list contains duplicates (see the counterexample). -/
theorem build_variants_amended (name : String) (ep : Nat) :
    (buildSearchVariants name none).Nodup ∧
    (∀ q, q ∈ buildSearchVariants name none ↔
      (q ≠ "" ∧ q ∈ [name, cleanName name, beforeColon name,
        beforeHyphen name, punctStripped name])) ∧
    (∀ q, q ∈ buildSearchVariants name (some ep) ↔
      ∃ n ∈ buildSearchVariants name none,
        q = n ++ " " ++ pad2 ep ∨ q = n ++ " " ++ toString ep) ∧
    ((buildSearchVariants name (some ep)).length
      = 2 * (buildSearchVariants name none).length) ∧
    (1 ≤ ep → ep ≤ 9 → (buildSearchVariants name (some ep)).Nodup) := by
  refine ⟨?_, ?_, ?_, ?_, ?_⟩
  · exact nodup_dedupStringsAux _ []
  · intro q
    show q ∈ dedupStrings _ ↔ _
    rw [dedupStrings, mem_dedupStringsAux_iff]
    simp only [List.not_mem_nil, not_false_eq_true, and_true,
      List.mem_filter, bne_iff_ne]
    tauto
  · intro q
    show q ∈ (baseVariants name).flatMap _ ↔ _
    rw [List.mem_flatMap]
    simp only [List.mem_cons, List.not_mem_nil, or_false]
    exact Iff.rfl
  · exact length_flatMap_pairs (pad2 ep) (toString ep) (baseVariants name)
  · intro h1 h9
    have hbase : (baseVariants name).Nodup := nodup_dedupStringsAux _ []
    show ((baseVariants name).flatMap _).Nodup
    interval_cases ep
    · have hp : pad2 1 = String.mk ['0', '1'] := by decide
      have hr : toString 1 = String.mk ['1'] := by decide
      rw [hp, hr]; exact nodup_pair_flatMap '1' _ hbase
    · have hp : pad2 2 = String.mk ['0', '2'] := by decide
      have hr : toString 2 = String.mk ['2'] := by decide
      rw [hp, hr]; exact nodup_pair_flatMap '2' _ hbase
    · have hp : pad2 3 = String.mk ['0', '3'] := by decide
      have hr : toString 3 = String.mk ['3'] := by decide
      rw [hp, hr]; exact nodup_pair_flatMap '3' _ hbase
    · have hp : pad2 4 = String.mk ['0', '4'] := by decide
      have hr : toString 4 = String.mk ['4'] := by decide
      rw [hp, hr]; exact nodup_pair_flatMap '4' _ hbase
    · have hp : pad2 5 = String.mk ['0', '5'] := by decide
      have hr : toString 5 = String.mk ['5'] := by decide
      rw [hp, hr]; exact nodup_pair_flatMap '5' _ hbase
    · have hp : pad2 6 = String.mk ['0', '6'] := by decide
      have hr : toString 6 = String.mk ['6'] := by decide
      rw [hp, hr]; exact nodup_pair_flatMap '6' _ hbase
    · have hp : pad2 7 = String.mk ['0', '7'] := by decide
      have hr : toString 7 = String.mk ['7'] := by decide
      rw [hp, hr]; exact nodup_pair_flatMap '7' _ hbase
    · have hp : pad2 8 = String.mk ['0', '8'] := by decide
      have hr : toString 8 = String.mk ['8'] := by decide
      rw [hp, hr]; exact nodup_pair_flatMap '8' _ hbase
    · have hp : pad2 9 = String.mk ['0', '9'] := by decide
      have hr : toString 9 = String.mk ['9'] := by decide
      rw [hp, hr]; exact nodup_pair_flatMap '9' _ hbase

/-- Witness for the amended C8 at a concrete title and episode 7. -/
theorem build_variants_amended_witness :
    (buildSearchVariants "Naruto" (some 7)).Nodup :=
  (build_variants_amended "Naruto" 7).2.2.2.2 (by decide) (by decide)

/-! ## Generic keyed cache with timestamps (the Map objects of the
source, read through isCacheValid) -/

/-- Association-list lookup, the Map.get of the source. -/
def assocGet {β : Type} (cache : List (String × β)) (k : String) : Option β :=
  match cache.find? (fun kv => kv.1 == k) with
  | some kv => some kv.2
  | none => none

/-- Association-list update, the Map.set of the source (replaces any
previous binding of the key). -/
def assocSet {β : Type} (cache : List (String × β)) (k : String) (v : β) :
    List (String × β) :=
  (k, v) :: cache.filter (fun kv => !(kv.1 == k))

theorem assocGet_set_self {β : Type} (cache : List (String × β))
    (k : String) (v : β) : assocGet (assocSet cache k v) k = some v := by
  simp [assocGet, assocSet, List.find?]

/-! ## The RealDebrid conversion coordinator (src/server.js lines
187-232; the same function appears in src/unnamed/part_000 lines
302-340) -/

/-- A conversion-cache entry: the ready url and its creation time in
milliseconds. -/
structure RDEntry where
  url : String
  timestamp : Nat
deriving DecidableEq, Repr

/-- The rdCache map, keyed by magnet-underscore-apiKey. -/
abbrev RDCache := List (String × RDEntry)

/-- Conversion-cache TTL: 60 minutes in milliseconds
(src/server.js line 27). -/
def RD_CACHE_TTL : Nat := 60 * 60 * 1000

/-- isCacheValid of src/server.js lines 29-31: an entry is valid iff it
exists and its age is under the ttl; the subtraction is exact (signed),
as in JavaScript. -/
def rdCacheValid (entry : Option RDEntry) (ttl : Nat) (now : Nat) : Bool :=
  match entry with
  | none => false
  | some e => decide ((now : Int) - (e.timestamp : Int) < (ttl : Int))

/-- The conversion-cache key of src/server.js line 190. -/
def rdCacheKey (magnet apiKey : String) : String := magnet ++ "_" ++ apiKey

/-- One provider call of the conversion sequence, for call traces. -/
inductive RDCall
  | addMagnet
  | torrentInfo
  | selectFiles
  | pollInfo
  | unrestrict
deriving DecidableEq, Repr

/-- Behaviour of the RealDebrid REST collaborator during one conversion.
Each field gives the outcome of the corresponding call; an error result
models a thrown axios error (HTTP failure or timeout), which the
try-catch of getRDStream turns into a null result.  Option models a
missing field in the JSON response (no id, no links entry, no download
url); torrentInfo returns the files array (only its length matters). -/
structure RDProvider where
  addMagnet : Except Unit (Option String)
  torrentInfo : String → Except Unit (List Nat)
  selectFiles : String → Except Unit Unit
  poll : Nat → String → Except Unit (Option String)
  unrestrict : String → Except Unit (Option String)

/-- The bounded polling loop of getRDStream (src/server.js lines
210-220): up to ten polls two seconds apart; a link found is unrestricted
at once; a missing download url lets the loop continue; any thrown call
aborts with null through the enclosing catch.  Only a successful
unrestricted url writes the cache. -/
def rdPollLoop (p : RDProvider) (tid key : String) (now : Nat)
    (cache : RDCache) :
    Nat → Nat → List RDCall → Option String × RDCache × List RDCall
  | 0, _, trace => (none, cache, trace)
  | fuel + 1, i, trace =>
    match p.poll i tid with
    | .error _ => (none, cache, trace ++ [.pollInfo])
    | .ok none => rdPollLoop p tid key now cache fuel (i + 1) (trace ++ [.pollInfo])
    | .ok (some link) =>
      match p.unrestrict link with
      | .error _ => (none, cache, trace ++ [.pollInfo, .unrestrict])
      | .ok none =>
        rdPollLoop p tid key now cache fuel (i + 1)
          (trace ++ [.pollInfo, .unrestrict])
      | .ok (some url) =>
        (some url, assocSet cache key { url := url, timestamp := now },
          trace ++ [.pollInfo, .unrestrict])

/-- getRDStream (src/server.js lines 187-226): guard on the api key,
check the conversion cache, then the provider sequence addMagnet,
torrentInfo, selectFiles and the polling loop.  Returns the result, the
updated cache, and the trace of provider calls issued. -/
def getRDStream (p : RDProvider) (magnet apiKey : String) (now : Nat)
    (cache : RDCache) : Option String × RDCache × List RDCall :=
  if apiKey = "" ∨ apiKey = "nord" then (none, cache, [])
  else if rdCacheValid (assocGet cache (rdCacheKey magnet apiKey))
      RD_CACHE_TTL now then
    (match assocGet cache (rdCacheKey magnet apiKey) with
      | some e => some e.url
      | none => none,
     cache, [])
  else
    match p.addMagnet with
    | .error _ => (none, cache, [.addMagnet])
    | .ok none => (none, cache, [.addMagnet])
    | .ok (some tid) =>
      match p.torrentInfo tid with
      | .error _ => (none, cache, [.addMagnet, .torrentInfo])
      | .ok files =>
        if files.length = 0 then (none, cache, [.addMagnet, .torrentInfo])
        else
          match p.selectFiles tid with
          | .error _ =>
            (none, cache, [.addMagnet, .torrentInfo, .selectFiles])
          | .ok _ =>
            rdPollLoop p tid (rdCacheKey magnet apiKey) now cache 10 0
              [.addMagnet, .torrentInfo, .selectFiles]

theorem rdPollLoop_cache_spec (p : RDProvider) (tid key : String)
    (now : Nat) (cache : RDCache) :
    ∀ (fuel i : Nat) (trace : List RDCall),
      ((rdPollLoop p tid key now cache fuel i trace).1 = none →
        (rdPollLoop p tid key now cache fuel i trace).2.1 = cache) ∧
      (∀ u, (rdPollLoop p tid key now cache fuel i trace).1 = some u →
        (rdPollLoop p tid key now cache fuel i trace).2.1 =
          assocSet cache key { url := u, timestamp := now }) := by
  intro fuel
  induction fuel with
  | zero => intro i trace; simp [rdPollLoop]
  | succ fuel ih =>
    intro i trace
    rw [rdPollLoop]
    rcases hp : p.poll i tid with e | linkOpt
    · simp
    · cases linkOpt with
      | none => dsimp only; exact ih (i + 1) (trace ++ [.pollInfo])
      | some link =>
        dsimp only
        rcases hu : p.unrestrict link with e | urlOpt
        · simp
        · cases urlOpt with
          | none =>
            dsimp only; exact ih (i + 1) (trace ++ [.pollInfo, .unrestrict])
          | some url => simp

theorem rdPollLoop_trace_head (p : RDProvider) (tid key : String)
    (now : Nat) (cache : RDCache) :
    ∀ (fuel i : Nat) (a : RDCall) (tr : List RDCall),
      ((rdPollLoop p tid key now cache fuel i (a :: tr)).2.2).head? = some a := by
  intro fuel
  induction fuel with
  | zero => intro i a tr; simp [rdPollLoop]
  | succ fuel ih =>
    intro i a tr
    rw [rdPollLoop]
    rcases hp : p.poll i tid with e | linkOpt
    · simp
    · cases linkOpt with
      | none =>
        dsimp only
        rw [List.cons_append]
        exact ih (i + 1) a _
      | some link =>
        dsimp only
        rcases hu : p.unrestrict link with e | urlOpt
        · simp
        · cases urlOpt with
          | none =>
            dsimp only
            rw [List.cons_append]
            exact ih (i + 1) a _
          | some url => simp

theorem getRDStream_trace_head (p : RDProvider) (magnet apiKey : String)
    (now : Nat) (cache : RDCache)
    (h1 : apiKey ≠ "") (h2 : apiKey ≠ "nord")
    (hmiss : rdCacheValid (assocGet cache (rdCacheKey magnet apiKey))
      RD_CACHE_TTL now = false) :
    ((getRDStream p magnet apiKey now cache).2.2).head? =
      some RDCall.addMagnet := by
  rw [getRDStream, if_neg (by tauto), if_neg (by rw [hmiss]; exact
    Bool.false_ne_true)]
  rcases ha : p.addMagnet with e | idOpt
  · simp
  · cases idOpt with
    | none => simp
    | some tid =>
      dsimp only
      rcases hi : p.torrentInfo tid with e | files
      · simp
      · dsimp only
        by_cases hf : files.length = 0
        · rw [if_pos hf]; rfl
        · rw [if_neg hf]
          rcases hs : p.selectFiles tid with e | u
          · simp
          · exact rdPollLoop_trace_head p tid _ now cache 10 0
              RDCall.addMagnet [RDCall.torrentInfo, RDCall.selectFiles]

/-- C2: with a configured account key and a cache miss, a conversion
attempt whose provider sequence fails at any step (no torrent id, empty
file list, exhausted polling, thrown HTTP error) returns null and leaves
the conversion cache unchanged, so a subsequent call for the same key
starts the full provider sequence again (its first provider call is
addMagnet); only a successful unrestricted url is written to the cache. -/
theorem conversion_failure_not_cached (p : RDProvider)
    (magnet apiKey : String) (now : Nat) (cache : RDCache)
    (h1 : apiKey ≠ "") (h2 : apiKey ≠ "nord")
    (hmiss : rdCacheValid (assocGet cache (rdCacheKey magnet apiKey))
      RD_CACHE_TTL now = false) :
    ((getRDStream p magnet apiKey now cache).1 = none →
      (getRDStream p magnet apiKey now cache).2.1 = cache ∧
      ∀ p2 : RDProvider,
        ((getRDStream p2 magnet apiKey now cache).2.2).head? =
          some RDCall.addMagnet) ∧
    (∀ u, (getRDStream p magnet apiKey now cache).1 = some u →
      (getRDStream p magnet apiKey now cache).2.1 =
        assocSet cache (rdCacheKey magnet apiKey)
          { url := u, timestamp := now }) := by
  have hcore :
      ((getRDStream p magnet apiKey now cache).1 = none →
        (getRDStream p magnet apiKey now cache).2.1 = cache) ∧
      (∀ u, (getRDStream p magnet apiKey now cache).1 = some u →
        (getRDStream p magnet apiKey now cache).2.1 =
          assocSet cache (rdCacheKey magnet apiKey)
            { url := u, timestamp := now }) := by
    rw [getRDStream, if_neg (by tauto), if_neg (by rw [hmiss]; exact
      Bool.false_ne_true)]
    rcases ha : p.addMagnet with e | idOpt
    · simp
    · cases idOpt with
      | none => simp
      | some tid =>
        dsimp only
        rcases hi : p.torrentInfo tid with e | files
        · simp
        · dsimp only
          by_cases hf : files.length = 0
          · rw [if_pos hf]; simp
          · rw [if_neg hf]
            rcases hs : p.selectFiles tid with e | u
            · simp
            · exact rdPollLoop_cache_spec p tid _ now cache 10 0 _
  exact ⟨fun hres => ⟨hcore.1 hres,
      fun p2 => getRDStream_trace_head p2 magnet apiKey now cache h1 h2 hmiss⟩,
    hcore.2⟩

/-- A provider on which every conversion fails: addMagnet returns a
response with no id field. -/
def failingProvider : RDProvider :=
  { addMagnet := .ok none
    torrentInfo := fun _ => .ok []
    selectFiles := fun _ => .ok ()
    poll := fun _ _ => .ok none
    unrestrict := fun _ => .ok none }

/-- Witness for C2: a failing conversion on an empty cache leaves the
cache empty, and the retry starts with addMagnet. -/
theorem conversion_failure_not_cached_witness :
    (getRDStream failingProvider "magnet:?xt=urn:btih:ABCD01" "KEY" 0 []).2.1
        = ([] : RDCache)
    ∧ ((getRDStream failingProvider "magnet:?xt=urn:btih:ABCD01" "KEY" 0
        []).2.2).head? = some RDCall.addMagnet :=
  have h := conversion_failure_not_cached failingProvider
    "magnet:?xt=urn:btih:ABCD01" "KEY" 0 []
    (by decide) (by decide) (by decide)
  ⟨(h.1 rfl).1, (h.1 rfl).2 failingProvider⟩

/-! ## Concurrency of the conversion coordinator (claim C1)

src/server.js lines 187-232 contain no in-progress marker of any kind:
getRDStream reads the conversion cache once on entry (line 191) and
writes it only on success (line 218); preCacheRD (lines 228-232) merely
repeats the cache-validity read before firing getRDStream without
awaiting it.  Between one request's cache read and its cache write, the
only shared state is the cache itself, so the interleaving behaviour of
two concurrent conversion requests for the same (magnet, apiKey) key is
captured by a two-thread machine over the shared cached flag.  A step of
a thread either performs its entry cache check — observing a hit and
finishing with no provider call, or observing a miss and issuing its own
provider addMagnet call — or completes its in-flight conversion, writing
the cache.  Successful provider sequences are assumed, the worst case
for duplicate addMagnet calls. -/

/-- Phase of one conversion request. -/
inductive RDPhase
  | idle
  | converting
  | finished
deriving DecidableEq, Repr

/-- Shared state of two concurrent conversion requests for one key. -/
structure ConcState where
  cached : Bool
  phase0 : RDPhase
  phase1 : RDPhase
  addMagnetCalls : Nat
deriving DecidableEq, Repr

/-- Phase of thread t. -/
def phaseOf (s : ConcState) (t : Bool) : RDPhase :=
  if t then s.phase1 else s.phase0

/-- Replace the phase of thread t. -/
def setPhase (s : ConcState) (t : Bool) (ph : RDPhase) : ConcState :=
  if t then { s with phase1 := ph } else { s with phase0 := ph }

/-- One atomic step of thread t: the entry cache check (lines 191-192),
or the completing cache write (line 218). -/
def concStep (s : ConcState) (t : Bool) : ConcState :=
  match phaseOf s t with
  | .idle =>
    if s.cached then setPhase s t .finished
    else
      { setPhase s t .converting with addMagnetCalls := s.addMagnetCalls + 1 }
  | .converting => { setPhase s t .finished with cached := true }
  | .finished => s

/-- Run a schedule of thread steps. -/
def concRun (sched : List Bool) (s : ConcState) : ConcState :=
  sched.foldl concStep s

/-- Both requests pending, nothing cached, no provider call yet. -/
def concInit : ConcState :=
  { cached := false, phase0 := .idle, phase1 := .idle, addMagnetCalls := 0 }

/-- Counterexample to C1: under the interleaving in which both requests
perform their entry cache check before either conversion completes, each
observes a miss and issues its own provider addMagnet call — two calls,
not exactly one.  No in-progress marker exists in the code to prevent
this. -/
theorem concurrent_conversions_two_addMagnet :
    (concRun [false, true, false, true] concInit).addMagnetCalls = 2 ∧
    (concRun [false, true, false, true] concInit).phase0 = RDPhase.finished ∧
    (concRun [false, true, false, true] concInit).phase1 = RDPhase.finished ∧
    (concRun [false, true, false, true] concInit).addMagnetCalls ≠ 1 := by
  decide

/-- C1 as amended: the only coalescing is through the result cache.  A
request whose cache check happens after another conversion for the same
key has completed and written the cache issues no provider call (one
addMagnet in total), while two requests whose cache checks both precede
either completion each issue their own addMagnet call (two in total). -/
theorem conversion_coalescing_cache_only :
    (concRun [false, false, true] concInit).addMagnetCalls = 1 ∧
    (concRun [false, false, true] concInit).phase0 = RDPhase.finished ∧
    (concRun [false, false, true] concInit).phase1 = RDPhase.finished ∧
    (concRun [false, true, false, true] concInit).addMagnetCalls = 2 := by
  decide

/-! ## The torrent-search cache (src/server.js lines 143-182) -/

/-- A torrent-cache entry: the sorted result list and its creation time
in milliseconds. -/
structure NyaaEntry where
  data : List Torrent
  timestamp : Nat
deriving DecidableEq, Repr

/-- The nyaaCache map, keyed by name-colon-episode. -/
abbrev NyaaCache := List (String × NyaaEntry)

/-- Torrent-search cache TTL: 30 minutes in milliseconds
(src/server.js line 24). -/
def NYAA_CACHE_TTL : Nat := 30 * 60 * 1000

/-- isCacheValid instantiated at the torrent cache. -/
def nyaaCacheValid (entry : Option NyaaEntry) (now : Nat) : Bool :=
  match entry with
  | none => false
  | some e =>
    decide ((now : Int) - (e.timestamp : Int) < (NYAA_CACHE_TTL : Int))

/-- The template-literal cache key of src/server.js line 144: name,
colon, episode (a null episode prints as the string null). -/
def nyaaKey (animeName : String) (episode : Option Nat) : String :=
  animeName ++ ":" ++
    (match episode with | none => "null" | some e => toString e)

/-- searchNyaa of src/server.js lines 143-182, with the torrent-index
collaborator abstracted as an oracle from query strings to the
post-catch record lists (a failed query is caught into an empty list on
line 158, so oracle results cover both outcomes).  Returns the result
list, the updated cache, and whether the index was queried at all.  The
cache write on line 180 is unconditional. -/
def searchNyaa (oracle : String → List Torrent) (animeName : String)
    (episode : Option Nat) (now : Nat) (cache : NyaaCache) :
    List Torrent × NyaaCache × Bool :=
  if nyaaCacheValid (assocGet cache (nyaaKey animeName episode)) now then
    (match assocGet cache (nyaaKey animeName episode) with
      | some e => e.data
      | none => [],
     cache, false)
  else
    (sortBySeeders
      (match episode with
        | none =>
          dedupTorrents ((buildSearchVariants animeName episode).flatMap oracle)
        | some ep =>
          (dedupTorrents
            ((buildSearchVariants animeName episode).flatMap oracle)).filter
              fun t => epRegexTest ep t.name),
     assocSet cache (nyaaKey animeName episode)
      { data := sortBySeeders
          (match episode with
            | none =>
              dedupTorrents
                ((buildSearchVariants animeName episode).flatMap oracle)
            | some ep =>
              (dedupTorrents
                ((buildSearchVariants animeName episode).flatMap oracle)).filter
                  fun t => epRegexTest ep t.name),
        timestamp := now },
     true)

theorem flatMap_all_nil {α β : Type} (f : α → List β)
    (h : ∀ a, f a = []) : ∀ l : List α, l.flatMap f = [] := by
  intro l
  induction l with
  | nil => rfl
  | cons a l ih => simp [List.flatMap_cons, h, ih]

/-- C10: a torrent-search call that misses the cache always queries the
index and writes its result to the torrent cache stamped with the
current time — also when every variant query failed and the result list
is empty — and any identical request within the thirty-minute TTL is
then answered from the cache, without querying the index. -/
theorem searchNyaa_caches_unconditionally (oracle : String → List Torrent)
    (animeName : String) (episode : Option Nat) (t0 t1 : Nat)
    (cache : NyaaCache)
    (hmiss : nyaaCacheValid (assocGet cache (nyaaKey animeName episode)) t0
      = false)
    (hle : t0 ≤ t1) (httl : t1 - t0 < NYAA_CACHE_TTL) :
    (searchNyaa oracle animeName episode t0 cache).2.2 = true ∧
    assocGet (searchNyaa oracle animeName episode t0 cache).2.1
        (nyaaKey animeName episode)
      = some { data := (searchNyaa oracle animeName episode t0 cache).1,
               timestamp := t0 } ∧
    ((∀ q, oracle q = []) →
      (searchNyaa oracle animeName episode t0 cache).1 = []) ∧
    (∀ oracle2 : String → List Torrent,
      searchNyaa oracle2 animeName episode t1
          (searchNyaa oracle animeName episode t0 cache).2.1
        = ((searchNyaa oracle animeName episode t0 cache).1,
           (searchNyaa oracle animeName episode t0 cache).2.1, false)) := by
  have hbranch :
      searchNyaa oracle animeName episode t0 cache =
        (sortBySeeders
          (match episode with
            | none =>
              dedupTorrents
                ((buildSearchVariants animeName episode).flatMap oracle)
            | some ep =>
              (dedupTorrents
                ((buildSearchVariants animeName episode).flatMap oracle)).filter
                  fun t => epRegexTest ep t.name),
         assocSet cache (nyaaKey animeName episode)
          { data := sortBySeeders
              (match episode with
                | none =>
                  dedupTorrents
                    ((buildSearchVariants animeName episode).flatMap oracle)
                | some ep =>
                  (dedupTorrents
                    ((buildSearchVariants animeName
                      episode).flatMap oracle)).filter
                      fun t => epRegexTest ep t.name),
            timestamp := t0 },
         true) := by
    rw [searchNyaa.eq_def, if_neg (by rw [hmiss]; exact Bool.false_ne_true)]
    cases episode <;> rfl
  refine ⟨by rw [hbranch], ?_, ?_, ?_⟩
  · rw [hbranch]
    exact assocGet_set_self _ _ _
  · intro hempty
    rw [hbranch]
    rw [flatMap_all_nil oracle hempty]
    cases episode <;> rfl
  · intro oracle2
    have hget : assocGet (searchNyaa oracle animeName episode t0 cache).2.1
        (nyaaKey animeName episode)
      = some { data := (searchNyaa oracle animeName episode t0 cache).1,
               timestamp := t0 } := by
      rw [hbranch]
      exact assocGet_set_self _ _ _
    have hval : nyaaCacheValid
        (assocGet (searchNyaa oracle animeName episode t0 cache).2.1
          (nyaaKey animeName episode)) t1 = true := by
      rw [hget]
      simp only [nyaaCacheValid, decide_eq_true_eq]
      omega
    rw [searchNyaa.eq_def, if_pos hval, hget]

/-- Witness for C10: an all-queries-failed search on an empty cache at
time 0 is answered verbatim from the cache at time 1000 even by an
oracle that would now return results. -/
theorem searchNyaa_caches_unconditionally_witness :
    searchNyaa (fun _ => [sampleA]) "Naruto" (some 7) 1000
        (searchNyaa (fun _ => []) "Naruto" (some 7) 0 []).2.1
      = ((searchNyaa (fun _ => []) "Naruto" (some 7) 0 []).1,
         (searchNyaa (fun _ => []) "Naruto" (some 7) 0 []).2.1, false) :=
  (searchNyaa_caches_unconditionally (fun _ => []) "Naruto" (some 7) 0 1000 []
    (by decide) (by decide) (by decide)).2.2.2 (fun _ => [sampleA])

end NyaaStremio
